import Mathlib

/-!
Shallow embedding of the histogram lane filter implemented in
`src/catkin_ws/src/lane_filter/src/lane_filter_node_Qlearning.py`.

Floating-point values are modelled by exact reals.  The block of
syntactically invalid reinforcement-learning pseudocode embedded in
`processSegments` (source lines 121-244) has no Python semantics and is
not part of the executable model; the model covers the executable
statements of the file.
-/

noncomputable section

namespace LaneFilter

/-- Color tag constants of the segment message (duckietown_msgs/Segment). -/
def WHITE : ℕ := 0

/-- Yellow color tag. -/
def YELLOW : ℕ := 1

/-- A 2-D point (one endpoint of an observed segment). -/
structure Point where
  x : ℝ
  y : ℝ

/-- An observed line segment: a color tag and two endpoints. -/
structure Segment where
  color : ℕ
  p1 : Point
  p2 : Point

/-- The configuration scalars read in `updateParams` and used by the filter. -/
structure Config where
  mean_d0 : ℝ
  mean_phi0 : ℝ
  sigma_d0 : ℝ
  sigma_phi0 : ℝ
  delta_d : ℝ
  delta_phi : ℝ
  d_max : ℝ
  d_min : ℝ
  phi_min : ℝ
  phi_max : ℝ
  cov_v : ℝ
  cov_omega : ℝ
  linewidth_white : ℝ
  linewidth_yellow : ℝ
  lanewidth : ℝ
  min_max : ℝ
  use_distance_weighting : Bool
  zero_val : ℝ
  l_peak : ℝ
  peak_val : ℝ
  l_max : ℝ
  use_max_segment_dist : Bool
  max_segment_dist : ℝ
  use_min_segs : Bool
  min_segs : ℕ
  use_propagation : Bool
  sigma_d_mask : ℝ
  sigma_phi_mask : ℝ

/-- A belief / likelihood grid.  The `nd × nphi` numpy array is modelled as a
function on integer indices; only indices in `[0, numD) × [0, numPhi)` are part
of the array. -/
def Grid : Type := ℤ → ℤ → ℝ

/-- The all-zero grid (`np.zeros`). -/
def zeroGrid : Grid := fun _ _ => 0

/-- Add `w` to cell `(i, j)` of a grid (`g[i,j] += w`). -/
def addAt (g : Grid) (i j : ℤ) (w : ℝ) : Grid :=
  fun a b => if a = i ∧ b = j then g a b + w else g a b

/-- Number of `d` bins: the length of `np.arange(d_min, d_max, delta_d)`. -/
def numD (c : Config) : ℕ := ⌈(c.d_max - c.d_min) / c.delta_d⌉₊

/-- Number of `phi` bins. -/
def numPhi (c : Config) : ℕ := ⌈(c.phi_max - c.phi_min) / c.delta_phi⌉₊

/-- The `d` coordinate stored at row `i` of the mgrid. -/
def dCoord (c : Config) (i : ℤ) : ℝ := c.d_min + i * c.delta_d

/-- The `phi` coordinate stored at column `j` of the mgrid. -/
def phiCoord (c : Config) (j : ℤ) : ℝ := c.phi_min + j * c.delta_phi

/-- Sum of a grid over the array cells (`np.sum`). -/
def gridSum (c : Config) (g : Grid) : ℝ :=
  ∑ i ∈ Finset.range (numD c), ∑ j ∈ Finset.range (numPhi c), g i j

/-- Frobenius norm of a grid (`np.linalg.norm`). -/
def gridNorm (c : Config) (g : Grid) : ℝ :=
  Real.sqrt (∑ i ∈ Finset.range (numD c), ∑ j ∈ Finset.range (numPhi c), (g i j) ^ 2)

/-- Row index of a `d` value: `floor((d_i - d_min)/delta_d)`. -/
def binD (c : Config) (x : ℝ) : ℤ := ⌊(x - c.d_min) / c.delta_d⌋

/-- Column index of a `phi` value: `floor((phi_i - phi_min)/delta_phi)`. -/
def binPhi (c : Config) (x : ℝ) : ℤ := ⌊(x - c.phi_min) / c.delta_phi⌋

/-- Coefficient `dwa` of the distance-weighting cubic (source line 43). -/
def dwa (c : Config) : ℝ :=
  -(c.zero_val * c.l_peak ^ 2 + c.zero_val * c.l_max ^ 2 - c.l_max ^ 2 * c.peak_val
      - 2 * c.zero_val * c.l_peak * c.l_max + 2 * c.l_peak * c.l_max * c.peak_val)
    / (c.l_peak ^ 2 * c.l_max * (c.l_peak - c.l_max) ^ 2)

/-- Coefficient `dwb` of the distance-weighting cubic (source line 44). -/
def dwb (c : Config) : ℝ :=
  (2 * c.zero_val * c.l_peak ^ 3 + c.zero_val * c.l_max ^ 3 - c.l_max ^ 3 * c.peak_val
      - 3 * c.zero_val * c.l_peak ^ 2 * c.l_max + 3 * c.l_peak ^ 2 * c.l_max * c.peak_val)
    / (c.l_peak ^ 2 * c.l_max * (c.l_peak - c.l_max) ^ 2)

/-- Coefficient `dwc` of the distance-weighting cubic (source line 45). -/
def dwc (c : Config) : ℝ :=
  -(c.zero_val * c.l_peak ^ 3 + 2 * c.zero_val * c.l_max ^ 3 - 2 * c.l_max ^ 3 * c.peak_val
      - 3 * c.zero_val * c.l_peak * c.l_max ^ 2 + 3 * c.l_peak * c.l_max ^ 2 * c.peak_val)
    / (c.l_peak * c.l_max * (c.l_peak - c.l_max) ^ 2)

/-- The distance weight of a vote (source line 269):
`dwa*l^3 + dwb*l^2 + dwc*l + zero_val`. -/
def distWeight (c : Config) (l : ℝ) : ℝ :=
  dwa c * l ^ 3 + dwb c * l ^ 2 + dwc c * l + c.zero_val

/-- Norm of the difference of the segment endpoints
(`np.linalg.norm(p2 - p1)`). -/
def segNorm (s : Segment) : ℝ :=
  Real.sqrt ((s.p2.x - s.p1.x) ^ 2 + (s.p2.y - s.p1.y) ^ 2)

/-- The `x` component of the unit tangent `t_hat`. -/
def tHatX (s : Segment) : ℝ := (s.p2.x - s.p1.x) / segNorm s

/-- The `y` component of the unit tangent `t_hat`. -/
def tHatY (s : Segment) : ℝ := (s.p2.y - s.p1.y) / segNorm s

/-- The pre-correction offset `d_i = (d1 + d2)/2` with
`d1 = <n_hat, p1>`, `d2 = <n_hat, p2>` and `n_hat = (-t_hat.y, t_hat.x)`. -/
def voteD (s : Segment) : ℝ :=
  ((-tHatY s) * s.p1.x + tHatX s * s.p1.y + ((-tHatY s) * s.p2.x + tHatX s * s.p2.y)) / 2

/-- The vote distance `l_i = (|l1| + |l2|)/2` with `l1 = <t_hat, p1>`,
`l2 = <t_hat, p2>` (the source takes absolute values of `l1`, `l2` first). -/
def voteL (s : Segment) : ℝ :=
  (|tHatX s * s.p1.x + tHatY s * s.p1.y| + |tHatX s * s.p2.x + tHatY s * s.p2.y|) / 2

/-- The pre-correction vote angle `phi_i = arcsin(t_hat.y)`. -/
def votePhi (s : Segment) : ℝ := Real.arcsin (tHatY s)

/-- The vote generator (source lines 372-408).  Returns `none` exactly when the
segment is degenerate (`p2 = p1`), in which case the Python code divides by a
zero norm, producing NaN components whose use as array indices aborts the
frame. -/
def generateVote (c : Config) (s : Segment) : Option (ℝ × ℝ × ℝ) :=
  if segNorm s = 0 then none
  else if s.color = YELLOW then
    if s.p2.x > s.p1.x then
      some (c.lanewidth / 2 - (voteD s - c.linewidth_yellow), -votePhi s, voteL s)
    else
      some (c.lanewidth / 2 - (-voteD s), votePhi s, voteL s)
  else
    some (voteD s, votePhi s, voteL s)

/-- Vote formulas as the specification states them in its vote-generator
section: unit tangent and normal, endpoint projections, averaged offset,
distance and angle, followed by the yellow-edge correction and the
lane-centerline transform.  Stated from the specification text, to be compared
with `generateVote`. -/
def specVote (c : Config) (s : Segment) : ℝ × ℝ × ℝ :=
  let nrm := Real.sqrt ((s.p2.x - s.p1.x) ^ 2 + (s.p2.y - s.p1.y) ^ 2)
  let tx := (s.p2.x - s.p1.x) / nrm
  let ty := (s.p2.y - s.p1.y) / nrm
  let nx := -ty
  let ny := tx
  let d1 := nx * s.p1.x + ny * s.p1.y
  let d2 := nx * s.p2.x + ny * s.p2.y
  let l1 := |tx * s.p1.x + ty * s.p1.y|
  let l2 := |tx * s.p2.x + ty * s.p2.y|
  let d_i := (d1 + d2) / 2
  let l_i := (l1 + l2) / 2
  let phi_i := Real.arcsin ty
  if s.p2.x > s.p1.x then
    (c.lanewidth / 2 - (d_i - c.linewidth_yellow), -phi_i, l_i)
  else
    (c.lanewidth / 2 - (-d_i), phi_i, l_i)

/-- One iteration of the segment-vote loop of `processSegments` (source lines
248-274) acting on the accumulated measurement-likelihood grid.  `Except.error`
marks the aborting NaN path of a degenerate segment. -/
def stepLik (c : Config) (g : Grid) (s : Segment) : Except Unit Grid :=
  if s.color ≠ YELLOW then Except.ok g
  else if s.p1.x < 0 ∨ s.p2.x < 0 then Except.ok g
  else
    match generateVote c s with
    | none => Except.error ()
    | some (d_i, phi_i, l_i) =>
      if d_i > c.d_max ∨ d_i < c.d_min ∨ phi_i < c.phi_min ∨ phi_i > c.phi_max then
        Except.ok g
      else if c.use_max_segment_dist = true ∧ l_i > c.max_segment_dist then
        Except.ok g
      else
        let i := binD c d_i
        let j := binPhi c phi_i
        if c.use_distance_weighting = true then
          if distWeight c l_i < 0 then Except.ok g
          else Except.ok (addAt g i j (distWeight c l_i))
        else
          Except.ok (addAt g i j (1 / l_i))

/-- The segment-vote loop: folds `stepLik` over the frame's segment list. -/
def buildLik (c : Config) : Grid → List Segment → Except Unit Grid
  | g, [] => Except.ok g
  | g, s :: rest =>
    match stepLik c g s with
    | Except.error e => Except.error e
    | Except.ok g' => buildLik c g' rest

/-- The fused raw belief of `updateBelief` (source line 369):
`(belief+1) * (likelihood+1) - 1`, elementwise. -/
def fusedRaw (b m : Grid) : Grid :=
  fun i j => (b i j + 1) * (m i j + 1) - 1

/-- The fusion step `updateBelief` (source lines 368-370): fuse and divide by
the array sum. -/
def updateBelief (c : Config) (b m : Grid) : Grid :=
  fun i j => fusedRaw b m i j / gridSum c (fusedRaw b m)

/-- The 2-D Gaussian density used by `initializeBelief` (the
`scipy.stats.multivariate_normal` pdf with diagonal covariance
`[[sigma_d_0, 0], [0, sigma_phi_0]]`). -/
def gaussian2 (c : Config) (d p : ℝ) : ℝ :=
  Real.exp (-(((d - c.mean_d0) ^ 2 / c.sigma_d0 + (p - c.mean_phi0) ^ 2 / c.sigma_phi0) / 2))
    / (2 * Real.pi * Real.sqrt (c.sigma_d0 * c.sigma_phi0))

/-- The belief initialisation (source lines 330-336): evaluate the Gaussian
prior density at every cell of the mgrid.  Note that the source stores the raw
density values without normalising. -/
def initializeBelief (c : Config) : Grid :=
  fun i j => gaussian2 c (dCoord c i) (phiCoord c j)

/-- Radius of the scipy Gaussian kernel: `int(truncate * sigma + 0.5)` with
`truncate = 4.0`. -/
def kernelR (σ : ℝ) : ℕ := ⌊4 * σ + 1 / 2⌋₊

/-- Unnormalised scipy kernel weight at offset `k`: the centre weight is `1.0`,
the others are `exp(-k^2 / (2 sigma^2))`. -/
def kernelU (σ : ℝ) (k : ℤ) : ℝ :=
  if k = 0 then 1 else Real.exp (-((k : ℝ) ^ 2 / (2 * σ ^ 2)))

/-- Normalisation constant of the scipy kernel. -/
def kernelZ (σ : ℝ) : ℝ :=
  ∑ k ∈ Finset.Icc (-(kernelR σ : ℤ)) (kernelR σ : ℤ), kernelU σ k

/-- One-dimensional correlation with the normalised Gaussian kernel
(`scipy.ndimage.filters.gaussian_filter1d`). -/
def smooth1 (σ : ℝ) (f : ℤ → ℝ) (i : ℤ) : ℝ :=
  (∑ k ∈ Finset.Icc (-(kernelR σ : ℤ)) (kernelR σ : ℤ), kernelU σ k * f (i + k)) / kernelZ σ

/-- Array read with `mode='constant', cval=0`: out-of-range cells read as 0. -/
def readGrid (c : Config) (g : Grid) (i j : ℤ) : ℝ :=
  if 0 ≤ i ∧ i < (numD c : ℤ) ∧ 0 ≤ j ∧ j < (numPhi c : ℤ) then g i j else 0

/-- Gaussian filtering along the `d` axis with `sigma_d_mask`. -/
def smoothD (c : Config) (g : Grid) : Grid :=
  fun i j => smooth1 c.sigma_d_mask (fun t => readGrid c g t j) i

/-- Two-dimensional Gaussian smoothing (`gaussian_filter` with per-axis sigmas
`cov_mask`): filter along the `d` axis, then along the `phi` axis. -/
def smoothed (c : Config) (g : Grid) : Grid :=
  fun i j => smooth1 c.sigma_phi_mask (fun t => readGrid c (smoothD c g) i t) j

/-- Predicted `d` coordinate of cell `(i, j)` under the motion model:
`d + v * delta_t * sin(phi)` (source line 341). -/
def dT (c : Config) (v dt : ℝ) (i j : ℤ) : ℝ :=
  dCoord c i + v * dt * Real.sin (phiCoord c j)

/-- Predicted `phi` coordinate of cell `(i, j)`: `phi + omega * delta_t`. -/
def phiT (c : Config) (w dt : ℝ) (j : ℤ) : ℝ :=
  phiCoord c j + w * dt

/-- The in-bounds test of the propagation loop (source line 349). -/
def inB (c : Config) (d p : ℝ) : Prop :=
  ¬(d > c.d_max ∨ d < c.d_min ∨ p < c.phi_min ∨ p > c.phi_max)

instance (c : Config) (d p : ℝ) : Decidable (inB c d p) := by
  unfold inB; infer_instance

/-- The remapped grid `p_beliefRV` of `propagateBelief` (source lines 344-353):
every cell with positive mass whose predicted state stays in bounds deposits
its mass at the predicted state's cell. -/
def remap (c : Config) (b : Grid) (dt v w : ℝ) : Grid :=
  fun a e =>
    ∑ i ∈ Finset.range (numD c), ∑ j ∈ Finset.range (numPhi c),
      if 0 < b i j ∧ inB c (dT c v dt i j) (phiT c w dt j)
          ∧ binD c (dT c v dt i j) = a ∧ binPhi c (phiT c w dt j) = e
      then b i j else 0

/-- The belief propagation (source lines 338-360): remap with the motion model,
smooth `100 * p_beliefRV`, and normalise; if the smoothed mass is zero the
belief is retained unchanged. -/
def propagateBelief (c : Config) (b : Grid) (dt v w : ℝ) : Grid :=
  let p := remap c b dt v w
  let s := smoothed c (fun i j => 100 * p i j)
  if gridSum c s = 0 then b else fun i j => s i j / gridSum c s

/-- Maximum cell value of a grid (`np.max` on the nd × nphi array; the grids it
is applied to are non-negative, where folding from 0 agrees with the array
maximum). -/
def gridMax (c : Config) (g : Grid) : ℝ :=
  Finset.fold max 0 (fun q : ℕ × ℕ => g q.1 q.2)
    (Finset.range (numD c) ×ˢ Finset.range (numPhi c))

/-- Value of the flattened (row-major) grid at flat index `k`. -/
def cellVal (c : Config) (g : Grid) (k : ℕ) : ℝ :=
  g ((k / numPhi c : ℕ) : ℤ) ((k % numPhi c : ℕ) : ℤ)

/-- Flat index of the first maximal cell in row-major order (`argmax` followed
by `unravel_index`). -/
def argmaxFlat (c : Config) (g : Grid) : ℕ :=
  (List.range (numD c * numPhi c)).foldl
    (fun best k => if cellVal c g best < cellVal c g k then k else best) 0

/-- Cell indices of the first maximal cell. -/
def argmaxCell (c : Config) (g : Grid) : ℕ × ℕ :=
  (argmaxFlat c g / numPhi c, argmaxFlat c g % numPhi c)

/-- The mutable state of the node that frame processing touches. -/
structure FilterState where
  beliefRV : Grid
  poseD : ℝ
  posePhi : ℝ
  poseInLane : Bool

/-- Result of one `processSegments` call: the frame aborted with an exception,
returned without publishing, or published a pose estimate. -/
inductive FrameResult where
  | crashed : FrameResult
  | noObservation : FrameResult
  | published : ℝ → ℝ → Bool → FrameResult

/-- The belief after the optional propagation step at the top of
`processSegments` (source lines 115-117). -/
def propagatedB (c : Config) (st : FilterState) (dt v w : ℝ) : Grid :=
  if c.use_propagation = true then propagateBelief c st.beliefRV dt v w else st.beliefRV

/-- The normalised measurement likelihood (source line 279). -/
def normLik (c : Config) (ml : Grid) : Grid :=
  fun i j => ml i j / gridSum c ml

/-- The belief after fusion (propagation enabled) or replacement (propagation
disabled) with the normalised likelihood (source lines 281-284). -/
def postBelief (c : Config) (b0 ml : Grid) : Grid :=
  if c.use_propagation = true then updateBelief c b0 (normLik c ml) else normLik c ml

/-- The published pose: lower-edge coordinates of the first maximal cell
(source lines 289-293). -/
def poseOf (c : Config) (g : Grid) : ℝ × ℝ :=
  (c.d_min + ((argmaxCell c g).1 : ℝ) * c.delta_d,
   c.phi_min + ((argmaxCell c g).2 : ℝ) * c.delta_phi)

/-- The in-lane confidence boolean (source line 302). -/
def inLaneOf (c : Config) (g : Grid) (nsegs : ℕ) (nml : Grid) : Bool :=
  decide (gridMax c g > c.min_max) && decide (nsegs > c.min_segs)
    && decide (gridNorm c nml ≠ 0)

/-- One call of `processSegments` (source lines 110-318, omitting the
syntactically invalid pseudocode block): optional propagation, the segment-vote
loop, the zero-mass early return, normalisation, fusion or replacement, and
pose/confidence extraction.  `dt`, `v` and `w` are the elapsed time and current
velocities read from the node state. -/
def processSegments (c : Config) (active : Bool) (st : FilterState) (dt v w : ℝ)
    (segs : List Segment) : FilterState × FrameResult :=
  if active = false then (st, FrameResult.noObservation)
  else
    let b0 := propagatedB c st dt v w
    let st0 : FilterState := ⟨b0, st.poseD, st.posePhi, st.poseInLane⟩
    match buildLik c zeroGrid segs with
    | Except.error _ => (st0, FrameResult.crashed)
    | Except.ok ml =>
      if gridNorm c ml = 0 then (st0, FrameResult.noObservation)
      else
        let b1 := postBelief c b0 ml
        let pq := poseOf c b1
        let il := inLaneOf c b1 segs.length (normLik c ml)
        (⟨b1, pq.1, pq.2, il⟩, FrameResult.published pq.1 pq.2 il)

/-- The raw parameter values fetched by one `updateParams` call (the
`rospy.get_param` results, source lines 72-105). -/
structure Params where
  mean_d0 : ℝ
  mean_phi0 : ℝ
  sigma_d0 : ℝ
  sigma_phi0 : ℝ
  delta_d : ℝ
  delta_phi : ℝ
  d_max : ℝ
  d_min : ℝ
  phi_min : ℝ
  phi_max : ℝ
  cov_v : ℝ
  cov_omega : ℝ
  linewidth_white : ℝ
  linewidth_yellow : ℝ
  lanewidth : ℝ
  min_max : ℝ
  use_distance_weighting : Bool
  zero_val : ℝ
  l_peak : ℝ
  peak_val : ℝ
  l_max : ℝ
  use_max_segment_dist : Bool
  max_segment_dist : ℝ
  use_min_segs : Bool
  min_segs : ℕ
  use_propagation : Bool
  sigma_d_mask : ℝ
  sigma_phi_mask : ℝ

/-- The `updateParams` callback (source lines 72-105): it overwrites every
configuration attribute with the freshly fetched parameter value and performs
no validation; the previous configuration is not consulted. -/
def updateParams (old : Config) (p : Params) : Config :=
  ⟨p.mean_d0, p.mean_phi0, p.sigma_d0, p.sigma_phi0, p.delta_d, p.delta_phi,
   p.d_max, p.d_min, p.phi_min, p.phi_max, p.cov_v, p.cov_omega,
   p.linewidth_white, p.linewidth_yellow, p.lanewidth, p.min_max,
   p.use_distance_weighting, p.zero_val, p.l_peak, p.peak_val, p.l_max,
   p.use_max_segment_dist, p.max_segment_dist, p.use_min_segs, p.min_segs,
   p.use_propagation, p.sigma_d_mask, p.sigma_phi_mask⟩

/-- The default configuration of `updateParams` (every `rospy.get_param`
default). -/
def defaultConfig : Config :=
  ⟨0, 0, 1 / 10, 1 / 100, 1 / 50, 1 / 50, 1 / 2, -(7 / 10),
   -(Real.pi / 2), Real.pi / 2, 1 / 2, 1 / 100, 1 / 25, 1 / 50, 2 / 5, 3 / 10,
   false, 1, 1, 10, 2, false, 1, false, 10, false, 1 / 20, 1 / 20⟩

/-- A 1x1-grid configuration used to instantiate universally quantified
results on concrete values. -/
def oneCellConfig : Config :=
  ⟨0, 0, 1, 1, 1, 1, 1, 0, 0, 1, 0, 0, 0, 0, 0, 1 / 2,
   false, 1, 1, 10, 2, false, 1, false, 0, false, 0, 0⟩

lemma numD_oneCell : numD oneCellConfig = 1 := by
  unfold numD oneCellConfig
  norm_num

lemma numPhi_oneCell : numPhi oneCellConfig = 1 := by
  unfold numPhi oneCellConfig
  norm_num

lemma gridSum_div (c : Config) (g : Grid) (S : ℝ) :
    gridSum c (fun i j => g i j / S) = gridSum c g / S := by
  unfold gridSum
  rw [Finset.sum_div]
  exact Finset.sum_congr rfl fun i _ => by rw [Finset.sum_div]

lemma gridNorm_eq_zero_iff (c : Config) (g : Grid) :
    gridNorm c g = 0 ↔ ∀ i j : ℕ, i < numD c → j < numPhi c → g i j = 0 := by
  unfold gridNorm
  have hnn : (0 : ℝ) ≤ ∑ i ∈ Finset.range (numD c), ∑ j ∈ Finset.range (numPhi c), g i j ^ 2 := by
    positivity
  constructor
  · intro h i j hi hj
    have hz : ∑ i ∈ Finset.range (numD c), ∑ j ∈ Finset.range (numPhi c), g i j ^ 2 = 0 :=
      le_antisymm (Real.sqrt_eq_zero'.mp h) hnn
    have hin := (Finset.sum_eq_zero_iff_of_nonneg (fun i _ => by positivity)).mp hz
      i (Finset.mem_range.mpr hi)
    have hcell := (Finset.sum_eq_zero_iff_of_nonneg (fun j _ => by positivity)).mp hin
      j (Finset.mem_range.mpr hj)
    exact (pow_eq_zero_iff two_ne_zero).mp hcell
  · intro h
    have hz : ∑ i ∈ Finset.range (numD c), ∑ j ∈ Finset.range (numPhi c), g i j ^ 2 = 0 :=
      Finset.sum_eq_zero fun i hi => Finset.sum_eq_zero fun j hj => by
        rw [h i j (Finset.mem_range.mp hi) (Finset.mem_range.mp hj)]
        ring
    rw [hz, Real.sqrt_zero]

lemma gridSum_pos_of_norm_ne_zero (c : Config) (g : Grid)
    (hg : ∀ i j : ℕ, i < numD c → j < numPhi c → 0 ≤ g i j)
    (hn : gridNorm c g ≠ 0) : 0 < gridSum c g := by
  have hcell : ∃ i j : ℕ, i < numD c ∧ j < numPhi c ∧ g i j ≠ 0 := by
    by_contra hno
    push_neg at hno
    exact hn ((gridNorm_eq_zero_iff c g).mpr fun i j hi hj => hno i j hi hj)
  obtain ⟨i0, j0, hi0, hj0, hne⟩ := hcell
  unfold gridSum
  apply Finset.sum_pos'
  · intro i hi
    exact Finset.sum_nonneg fun j hj =>
      hg i j (Finset.mem_range.mp hi) (Finset.mem_range.mp hj)
  · refine ⟨i0, Finset.mem_range.mpr hi0, ?_⟩
    apply Finset.sum_pos'
    · intro j hj
      exact hg i0 j hi0 (Finset.mem_range.mp hj)
    · exact ⟨j0, Finset.mem_range.mpr hj0,
        lt_of_le_of_ne (hg i0 j0 hi0 hj0) (Ne.symm hne)⟩

lemma gridSum_normLik (c : Config) (ml : Grid)
    (hg : ∀ i j : ℕ, i < numD c → j < numPhi c → 0 ≤ ml i j)
    (hn : gridNorm c ml ≠ 0) : gridSum c (normLik c ml) = 1 := by
  have hpos := gridSum_pos_of_norm_ne_zero c ml hg hn
  unfold normLik
  rw [gridSum_div]
  exact div_self (ne_of_gt hpos)

/-- C4 (amended): for valid control points the source's closed-form cubic takes
value `zero_val` at 0 and `peak_val` at `l_peak`, but value `0` (not
`zero_val`) at `l_max`. -/
theorem claim_C4 (c : Config) (hp : 0 < c.l_peak) (hm : c.l_peak < c.l_max) :
    distWeight c 0 = c.zero_val ∧ distWeight c c.l_peak = c.peak_val ∧
      distWeight c c.l_max = 0 := by
  have hp0 : c.l_peak ≠ 0 := ne_of_gt hp
  have hm0 : c.l_max ≠ 0 := ne_of_gt (hp.trans hm)
  have hne : c.l_peak - c.l_max ≠ 0 := sub_ne_zero.mpr (ne_of_lt hm)
  refine ⟨?_, ?_, ?_⟩
  · unfold distWeight
    ring
  · unfold distWeight dwa dwb dwc
    field_simp
    ring
  · unfold distWeight dwa dwb dwc
    field_simp
    ring

/-- Witness for C4 at the node's default parameters. -/
theorem claim_C4_witness :
    distWeight defaultConfig 0 = defaultConfig.zero_val ∧
      distWeight defaultConfig defaultConfig.l_peak = defaultConfig.peak_val ∧
      distWeight defaultConfig defaultConfig.l_max = 0 :=
  claim_C4 defaultConfig (by norm_num [defaultConfig]) (by norm_num [defaultConfig])

/-- Counterexample to C4 as stated: at the default parameters the cubic takes
value 0 at `l_max`, not `zero_val = 1`. -/
theorem claim_C4_cex :
    distWeight defaultConfig defaultConfig.l_max ≠ defaultConfig.zero_val := by
  unfold distWeight dwa dwb dwc defaultConfig
  norm_num

/-- C9 (amended): `updateParams` performs no validation.  The fetched parameter
values, whatever they are, are stored unconditionally, and the previous
configuration is never consulted. -/
theorem claim_C9 :
    ∀ (old₁ old₂ : Config) (p : Params),
      updateParams old₁ p = updateParams old₂ p ∧
      (updateParams old₁ p).d_min = p.d_min ∧
      (updateParams old₁ p).d_max = p.d_max ∧
      (updateParams old₁ p).delta_d = p.delta_d ∧
      (updateParams old₁ p).delta_phi = p.delta_phi := by
  intro old₁ old₂ p
  exact ⟨rfl, rfl, rfl, rfl, rfl⟩

/-- An invalid parameter set: `d_min > d_max` and negative resolution. -/
def badParams : Params :=
  ⟨0, 0, 1 / 10, 1 / 100, -1, 0, 0, 1, -1, 1, 1 / 2, 1 / 100, 1 / 25, 1 / 50,
   2 / 5, 3 / 10, false, 1, 1, 10, 2, false, 1, false, 10, false, 1 / 20, 1 / 20⟩

/-- Counterexample to C9 as stated: invalid axis bounds (`d_min = 1 ≥ 0 =
d_max`) and a non-positive resolution (`delta_d = -1`) are accepted and become
the active configuration. -/
theorem claim_C9_cex :
    (updateParams defaultConfig badParams).d_min = 1 ∧
      (updateParams defaultConfig badParams).d_max = 0 ∧
      (updateParams defaultConfig badParams).delta_d = -1 ∧
      ¬(updateParams defaultConfig badParams).d_min < (updateParams defaultConfig badParams).d_max := by
  refine ⟨rfl, rfl, rfl, ?_⟩
  unfold updateParams badParams
  norm_num

/-- C2: the fusion step computes `normalize((belief+1) * (likelihood+1) - 1)`
elementwise, and on operands with cells in `[0,1]` whose likelihood is
normalised the fused output sums to 1 with every cell non-negative. -/
theorem claim_C2 (c : Config) (b m : Grid)
    (hb : ∀ i j : ℕ, i < numD c → j < numPhi c → 0 ≤ b i j ∧ b i j ≤ 1)
    (hm : ∀ i j : ℕ, i < numD c → j < numPhi c → 0 ≤ m i j ∧ m i j ≤ 1)
    (hsum : gridSum c m = 1) :
    (∀ i j : ℤ, updateBelief c b m i j = fusedRaw b m i j / gridSum c (fusedRaw b m)) ∧
      gridSum c (updateBelief c b m) = 1 ∧
      (∀ i j : ℕ, i < numD c → j < numPhi c → 0 ≤ updateBelief c b m i j) := by
  have hge : 1 ≤ gridSum c (fusedRaw b m) := by
    rw [← hsum]
    unfold gridSum
    apply Finset.sum_le_sum
    intro i hi
    apply Finset.sum_le_sum
    intro j hj
    have hbij := hb i j (Finset.mem_range.mp hi) (Finset.mem_range.mp hj)
    have hmij := hm i j (Finset.mem_range.mp hi) (Finset.mem_range.mp hj)
    unfold fusedRaw
    nlinarith [hbij.1, hmij.1]
  have hS : 0 < gridSum c (fusedRaw b m) := lt_of_lt_of_le one_pos hge
  refine ⟨fun i j => rfl, ?_, ?_⟩
  · unfold updateBelief
    rw [gridSum_div]
    exact div_self (ne_of_gt hS)
  · intro i j hi hj
    have hbij := hb i j hi hj
    have hmij := hm i j hi hj
    unfold updateBelief fusedRaw
    apply div_nonneg _ (le_of_lt hS)
    nlinarith [hbij.1, hmij.1]

/-- Witness for C2: a concrete 1x1 grid with `belief = likelihood = 1`. -/
theorem claim_C2_witness :
    (∀ i j : ℤ, updateBelief oneCellConfig (fun _ _ => 1) (fun _ _ => 1) i j =
        fusedRaw (fun _ _ => 1) (fun _ _ => 1) i j /
          gridSum oneCellConfig (fusedRaw (fun _ _ => 1) (fun _ _ => 1))) ∧
      gridSum oneCellConfig (updateBelief oneCellConfig (fun _ _ => 1) (fun _ _ => 1)) = 1 ∧
      (∀ i j : ℕ, i < numD oneCellConfig → j < numPhi oneCellConfig →
        0 ≤ updateBelief oneCellConfig (fun _ _ => 1) (fun _ _ => 1) i j) := by
  apply claim_C2 oneCellConfig (fun _ _ => 1) (fun _ _ => 1)
  · intro i j _ _
    norm_num
  · intro i j _ _
    norm_num
  · rw [show gridSum oneCellConfig (fun _ _ => 1) =
        ∑ i ∈ Finset.range (numD oneCellConfig),
          ∑ j ∈ Finset.range (numPhi oneCellConfig), (1 : ℝ) from rfl]
    rw [numD_oneCell, numPhi_oneCell]
    norm_num

lemma segNorm_pos (s : Segment) (h : segNorm s ≠ 0) : 0 < segNorm s :=
  lt_of_le_of_ne (Real.sqrt_nonneg _) (Ne.symm h)

lemma tHat_proj_diff (s : Segment) (h : segNorm s ≠ 0) :
    tHatX s * s.p2.x + tHatY s * s.p2.y - (tHatX s * s.p1.x + tHatY s * s.p1.y)
      = segNorm s := by
  have hsq : segNorm s ^ 2 = (s.p2.x - s.p1.x) ^ 2 + (s.p2.y - s.p1.y) ^ 2 :=
    Real.sq_sqrt (by positivity)
  have hdot : tHatX s * s.p2.x + tHatY s * s.p2.y - (tHatX s * s.p1.x + tHatY s * s.p1.y)
      = ((s.p2.x - s.p1.x) ^ 2 + (s.p2.y - s.p1.y) ^ 2) / segNorm s := by
    unfold tHatX tHatY
    ring
  rw [hdot, ← hsq, pow_two]
  exact mul_div_cancel_left₀ _ h

lemma voteL_pos (s : Segment) (h : segNorm s ≠ 0) : 0 < voteL s := by
  have hpos := segNorm_pos s h
  have key := tHat_proj_diff s h
  unfold voteL
  have h1 := le_abs_self (tHatX s * s.p2.x + tHatY s * s.p2.y)
  have h2 := neg_abs_le (tHatX s * s.p1.x + tHatY s * s.p1.y)
  linarith

lemma generateVote_some_inv (c : Config) (s : Segment) (d φ l : ℝ)
    (h : generateVote c s = some (d, φ, l)) : l = voteL s ∧ segNorm s ≠ 0 := by
  unfold generateVote at h
  by_cases h0 : segNorm s = 0
  · rw [if_pos h0] at h
    exact absurd h (by simp)
  · rw [if_neg h0] at h
    refine ⟨?_, h0⟩
    by_cases h1 : s.color = YELLOW
    · rw [if_pos h1] at h
      by_cases h2 : s.p2.x > s.p1.x
      · rw [if_pos h2] at h
        simp only [Option.some.injEq, Prod.mk.injEq] at h
        exact h.2.2.symm
      · rw [if_neg h2] at h
        simp only [Option.some.injEq, Prod.mk.injEq] at h
        exact h.2.2.symm
    · rw [if_neg h1] at h
      simp only [Option.some.injEq, Prod.mk.injEq] at h
      exact h.2.2.symm

lemma addAt_nonneg (g : Grid) (i j : ℤ) (w : ℝ)
    (hg : ∀ a b : ℤ, 0 ≤ g a b) (hw : 0 ≤ w) : ∀ a b : ℤ, 0 ≤ addAt g i j w a b := by
  intro a b
  unfold addAt
  split_ifs
  · have := hg a b
    linarith
  · exact hg a b

lemma stepLik_ok_nonneg (c : Config) (g g' : Grid) (s : Segment)
    (h : stepLik c g s = Except.ok g')
    (hg : ∀ a b : ℤ, 0 ≤ g a b) : ∀ a b : ℤ, 0 ≤ g' a b := by
  unfold stepLik at h
  by_cases h1 : s.color ≠ YELLOW
  · rw [if_pos h1] at h
    injection h with h
    rw [← h]
    exact hg
  · rw [if_neg h1] at h
    by_cases h2 : s.p1.x < 0 ∨ s.p2.x < 0
    · rw [if_pos h2] at h
      injection h with h
      rw [← h]
      exact hg
    · rw [if_neg h2] at h
      rcases hv : generateVote c s with _ | v
      · rw [hv] at h
        exact absurd h (by simp)
      · obtain ⟨d_i, phi_i, l_i⟩ := v
        rw [hv] at h
        simp only at h
        have hl := generateVote_some_inv c s d_i phi_i l_i hv
        have hlpos : 0 < l_i := hl.1 ▸ voteL_pos s hl.2
        by_cases h3 : d_i > c.d_max ∨ d_i < c.d_min ∨ phi_i < c.phi_min ∨ phi_i > c.phi_max
        · rw [if_pos h3] at h
          injection h with h
          rw [← h]
          exact hg
        · rw [if_neg h3] at h
          by_cases h4 : c.use_max_segment_dist = true ∧ l_i > c.max_segment_dist
          · rw [if_pos h4] at h
            injection h with h
            rw [← h]
            exact hg
          · rw [if_neg h4] at h
            by_cases h5 : c.use_distance_weighting = true
            · rw [if_pos h5] at h
              by_cases h6 : distWeight c l_i < 0
              · rw [if_pos h6] at h
                injection h with h
                rw [← h]
                exact hg
              · rw [if_neg h6] at h
                injection h with h
                rw [← h]
                exact addAt_nonneg _ _ _ _ hg (le_of_not_lt h6)
            · rw [if_neg h5] at h
              injection h with h
              rw [← h]
              exact addAt_nonneg _ _ _ _ hg (le_of_lt (by positivity))

lemma buildLik_ok_nonneg (c : Config) (segs : List Segment) :
    ∀ (g ml : Grid), buildLik c g segs = Except.ok ml →
      (∀ a b : ℤ, 0 ≤ g a b) → ∀ a b : ℤ, 0 ≤ ml a b := by
  induction segs with
  | nil =>
    intro g ml h hg
    injection h with h
    rw [← h]
    exact hg
  | cons s rest ih =>
    intro g ml h hg
    unfold buildLik at h
    rcases hs : stepLik c g s with e | g'
    · rw [hs] at h
      exact absurd h (by simp)
    · rw [hs] at h
      simp only at h
      exact ih g' ml h (stepLik_ok_nonneg c g g' s hs hg)

lemma zeroGrid_nonneg : ∀ a b : ℤ, 0 ≤ zeroGrid a b := by
  intro a b
  unfold zeroGrid
  norm_num

lemma gridNorm_zeroGrid (c : Config) : gridNorm c zeroGrid = 0 := by
  unfold gridNorm zeroGrid
  simp

lemma processSegments_ok_eq (c : Config) (st : FilterState) (dt v w : ℝ)
    (segs : List Segment) (ml : Grid)
    (hml : buildLik c zeroGrid segs = Except.ok ml)
    (hnz : gridNorm c ml ≠ 0) :
    processSegments c true st dt v w segs =
      (⟨postBelief c (propagatedB c st dt v w) ml,
        (poseOf c (postBelief c (propagatedB c st dt v w) ml)).1,
        (poseOf c (postBelief c (propagatedB c st dt v w) ml)).2,
        inLaneOf c (postBelief c (propagatedB c st dt v w) ml) segs.length (normLik c ml)⟩,
       FrameResult.published
         (poseOf c (postBelief c (propagatedB c st dt v w) ml)).1
         (poseOf c (postBelief c (propagatedB c st dt v w) ml)).2
         (inLaneOf c (postBelief c (propagatedB c st dt v w) ml) segs.length (normLik c ml))) := by
  simp only [processSegments, hml]
  rw [if_neg (by decide : ¬(true = false)), if_neg hnz]

lemma processSegments_zeroMass_eq (c : Config) (st : FilterState) (dt v w : ℝ)
    (segs : List Segment) (ml : Grid)
    (hml : buildLik c zeroGrid segs = Except.ok ml)
    (hz : gridNorm c ml = 0) :
    processSegments c true st dt v w segs =
      (⟨propagatedB c st dt v w, st.poseD, st.posePhi, st.poseInLane⟩,
       FrameResult.noObservation) := by
  simp only [processSegments, hml]
  rw [if_neg (by decide : ¬(true = false)), if_pos hz]

lemma processSegments_crashed_eq (c : Config) (st : FilterState) (dt v w : ℝ)
    (segs : List Segment) (e : Unit)
    (h : buildLik c zeroGrid segs = Except.error e) :
    processSegments c true st dt v w segs =
      (⟨propagatedB c st dt v w, st.poseD, st.posePhi, st.poseInLane⟩,
       FrameResult.crashed) := by
  simp only [processSegments, h]
  rw [if_neg (by decide : ¬(true = false))]

lemma normLik_norm_ne_zero (c : Config) (ml : Grid)
    (hg : ∀ i j : ℕ, i < numD c → j < numPhi c → 0 ≤ ml i j)
    (hn : gridNorm c ml ≠ 0) : gridNorm c (normLik c ml) ≠ 0 := by
  have hS := gridSum_pos_of_norm_ne_zero c ml hg hn
  have hcell : ∃ i j : ℕ, i < numD c ∧ j < numPhi c ∧ ml i j ≠ 0 := by
    by_contra hno
    push_neg at hno
    exact hn ((gridNorm_eq_zero_iff c ml).mpr fun i j hi hj => hno i j hi hj)
  obtain ⟨i0, j0, hi0, hj0, hne⟩ := hcell
  intro hzero
  have hval := (gridNorm_eq_zero_iff c (normLik c ml)).mp hzero i0 j0 hi0 hj0
  unfold normLik at hval
  exact hne (by
    have := div_eq_zero_iff.mp hval
    rcases this with h | h
    · exact h
    · exact absurd h (ne_of_gt hS))

/-- C6: a frame with an empty segment list (and, more generally, a frame whose
accumulated likelihood has zero mass) leaves the stored belief unchanged apart
from the propagation step, updates no pose field, and returns without
publishing and without an error. -/
theorem claim_C6 (c : Config) (st : FilterState) (dt v w : ℝ) :
    processSegments c true st dt v w [] =
      (⟨propagatedB c st dt v w, st.poseD, st.posePhi, st.poseInLane⟩,
        FrameResult.noObservation) ∧
    ∀ (segs : List Segment) (ml : Grid),
      buildLik c zeroGrid segs = Except.ok ml → gridNorm c ml = 0 →
      processSegments c true st dt v w segs =
        (⟨propagatedB c st dt v w, st.poseD, st.posePhi, st.poseInLane⟩,
          FrameResult.noObservation) := by
  constructor
  · exact processSegments_zeroMass_eq c st dt v w [] zeroGrid rfl (gridNorm_zeroGrid c)
  · intro segs ml hml hz
    exact processSegments_zeroMass_eq c st dt v w segs ml hml hz

/-- Witness for C6: concrete run with propagation disabled. -/
theorem claim_C6_witness :
    processSegments oneCellConfig true ⟨zeroGrid, 0, 0, false⟩ 0 0 0 [] =
      (⟨zeroGrid, 0, 0, false⟩, FrameResult.noObservation) := by
  have h := (claim_C6 oneCellConfig ⟨zeroGrid, 0, 0, false⟩ 0 0 0).1
  rw [h]
  unfold propagatedB oneCellConfig
  norm_num

/-- C1 (amended): the fusion step, the propagation step and the
replace-by-likelihood path each yield a belief summing to 1 (propagation being
a no-op that retains the previous belief when its computed mass is zero);
`initializeBelief`, however, stores the raw Gaussian density values without
normalising, so its grid does not in general sum to 1. -/
theorem claim_C1 (c : Config) :
    (∀ b m : Grid,
      (∀ i j : ℕ, i < numD c → j < numPhi c → 0 ≤ b i j) →
      (∀ i j : ℕ, i < numD c → j < numPhi c → 0 ≤ m i j) →
      gridSum c m = 1 →
      gridSum c (updateBelief c b m) = 1) ∧
    (∀ (b : Grid) (dt v w : ℝ),
      gridSum c (propagateBelief c b dt v w) = 1 ∨ propagateBelief c b dt v w = b) ∧
    (∀ (st : FilterState) (dt v w : ℝ) (segs : List Segment) (ml : Grid),
      c.use_propagation = false →
      buildLik c zeroGrid segs = Except.ok ml →
      gridNorm c ml ≠ 0 →
      ∃ stq : FilterState,
        processSegments c true st dt v w segs =
          (stq, FrameResult.published stq.poseD stq.posePhi stq.poseInLane) ∧
        gridSum c stq.beliefRV = 1) := by
  refine ⟨?_, ?_, ?_⟩
  · intro b m hb hm hsum
    have hge : 1 ≤ gridSum c (fusedRaw b m) := by
      rw [← hsum]
      unfold gridSum
      apply Finset.sum_le_sum
      intro i hi
      apply Finset.sum_le_sum
      intro j hj
      have hbij := hb i j (Finset.mem_range.mp hi) (Finset.mem_range.mp hj)
      have hmij := hm i j (Finset.mem_range.mp hi) (Finset.mem_range.mp hj)
      unfold fusedRaw
      nlinarith
    unfold updateBelief
    rw [gridSum_div]
    exact div_self (by linarith)
  · intro b dt v w
    by_cases h : gridSum c (smoothed c fun i j => 100 * remap c b dt v w i j) = 0
    · right
      simp only [propagateBelief]
      rw [if_pos h]
    · left
      simp only [propagateBelief]
      rw [if_neg h, gridSum_div]
      exact div_self h
  · intro st dt v w segs ml hprop hml hnz
    have hnn := buildLik_ok_nonneg c segs zeroGrid ml hml zeroGrid_nonneg
    refine ⟨_, processSegments_ok_eq c st dt v w segs ml hml hnz, ?_⟩
    show gridSum c (postBelief c (propagatedB c st dt v w) ml) = 1
    unfold postBelief
    rw [hprop]
    norm_num
    exact gridSum_normLik c ml (fun i j _ _ => hnn i j) hnz

/-- Witness for C1 on a concrete 1x1 grid: the fusion step yields sum 1. -/
theorem claim_C1_witness :
    gridSum oneCellConfig
      (updateBelief oneCellConfig (fun _ _ => 1) (fun _ _ => 1)) = 1 := by
  apply (claim_C1 oneCellConfig).1 (fun _ _ => 1) (fun _ _ => 1)
  · intro i j _ _
    norm_num
  · intro i j _ _
    norm_num
  · rw [show gridSum oneCellConfig (fun _ _ => 1) =
        ∑ i ∈ Finset.range (numD oneCellConfig),
          ∑ j ∈ Finset.range (numPhi oneCellConfig), (1 : ℝ) from rfl]
    rw [numD_oneCell, numPhi_oneCell]
    norm_num

/-- Counterexample to C1 as stated: `initializeBelief` does not normalise; on a
1x1 grid with unit variances and the mean at the cell coordinate the stored
grid sums to `1/(2*pi)`, not 1. -/
theorem claim_C1_cex :
    gridSum oneCellConfig (initializeBelief oneCellConfig) ≠ 1 := by
  have h : gridSum oneCellConfig (initializeBelief oneCellConfig) = 1 / (2 * Real.pi) := by
    unfold gridSum
    rw [numD_oneCell, numPhi_oneCell]
    rw [Finset.sum_range_one, Finset.sum_range_one]
    unfold initializeBelief gaussian2 dCoord phiCoord oneCellConfig
    norm_num
  rw [h]
  intro hc
  have hpi := Real.pi_gt_three
  have h2 : 2 * Real.pi ≠ 0 := by positivity
  field_simp at hc
  linarith

/-- C5: whenever a frame publishes, the in-lane boolean is true iff the maximum
posterior cell mass exceeds the threshold, the frame's segment count exceeds
the configured minimum, and the pre-fusion likelihood had nonzero mass; in
particular a segment count below the minimum forces the boolean false. -/
theorem claim_C5 (c : Config) (st : FilterState) (dt v w : ℝ)
    (segs : List Segment) (ml : Grid)
    (hml : buildLik c zeroGrid segs = Except.ok ml)
    (hnz : gridNorm c ml ≠ 0) :
    ∃ stq : FilterState,
      processSegments c true st dt v w segs =
        (stq, FrameResult.published stq.poseD stq.posePhi stq.poseInLane) ∧
      (stq.poseInLane = true ↔
        (gridMax c stq.beliefRV > c.min_max ∧ segs.length > c.min_segs ∧
          gridSum c ml ≠ 0)) ∧
      (segs.length < c.min_segs → stq.poseInLane = false) := by
  have hnn := buildLik_ok_nonneg c segs zeroGrid ml hml zeroGrid_nonneg
  have hSpos := gridSum_pos_of_norm_ne_zero c ml (fun i j _ _ => hnn i j) hnz
  have hnml := normLik_norm_ne_zero c ml (fun i j _ _ => hnn i j) hnz
  refine ⟨_, processSegments_ok_eq c st dt v w segs ml hml hnz, ?_, ?_⟩
  · show inLaneOf c (postBelief c (propagatedB c st dt v w) ml) segs.length (normLik c ml)
        = true ↔ _
    unfold inLaneOf
    rw [Bool.and_eq_true, Bool.and_eq_true]
    simp only [decide_eq_true_eq]
    constructor
    · rintro ⟨⟨hA, hB⟩, _⟩
      exact ⟨hA, hB, ne_of_gt hSpos⟩
    · rintro ⟨hA, hB, _⟩
      exact ⟨⟨hA, hB⟩, hnml⟩
  · intro hlt
    show inLaneOf c (postBelief c (propagatedB c st dt v w) ml) segs.length (normLik c ml)
        = false
    unfold inLaneOf
    have hB : decide (segs.length > c.min_segs) = false := by
      apply decide_eq_false
      omega
    rw [hB]
    simp

/-- A horizontal unit yellow segment from the origin, used as concrete input. -/
def unitSeg : Segment := ⟨YELLOW, ⟨0, 0⟩, ⟨1, 0⟩⟩

lemma segNorm_unitSeg : segNorm unitSeg = 1 := by
  unfold segNorm unitSeg
  norm_num

lemma tHatX_unitSeg : tHatX unitSeg = 1 := by
  unfold tHatX
  rw [segNorm_unitSeg]
  norm_num [unitSeg]

lemma tHatY_unitSeg : tHatY unitSeg = 0 := by
  unfold tHatY
  rw [segNorm_unitSeg]
  norm_num [unitSeg]

lemma generateVote_unitSeg :
    generateVote oneCellConfig unitSeg = some (0, 0, 1 / 2) := by
  unfold generateVote
  rw [segNorm_unitSeg]
  rw [if_neg one_ne_zero, if_pos (show unitSeg.color = YELLOW from rfl),
    if_pos (show unitSeg.p2.x > unitSeg.p1.x by norm_num [unitSeg])]
  unfold voteD voteL votePhi
  rw [tHatX_unitSeg, tHatY_unitSeg]
  norm_num [unitSeg, oneCellConfig, Real.arcsin_zero]

lemma stepLik_unitSeg :
    stepLik oneCellConfig zeroGrid unitSeg = Except.ok (addAt zeroGrid 0 0 2) := by
  unfold stepLik
  rw [if_neg (not_not_intro (show unitSeg.color = YELLOW from rfl)),
    if_neg (show ¬(unitSeg.p1.x < 0 ∨ unitSeg.p2.x < 0) by norm_num [unitSeg]),
    generateVote_unitSeg]
  simp only
  rw [if_neg (by norm_num [oneCellConfig]), if_neg (by norm_num [oneCellConfig]),
    if_neg (by norm_num [oneCellConfig])]
  have hbd : binD oneCellConfig 0 = 0 := by
    unfold binD oneCellConfig
    norm_num
  have hbp : binPhi oneCellConfig 0 = 0 := by
    unfold binPhi oneCellConfig
    norm_num
  rw [hbd, hbp]
  norm_num

lemma buildLik_unitSeg :
    buildLik oneCellConfig zeroGrid [unitSeg] = Except.ok (addAt zeroGrid 0 0 2) := by
  unfold buildLik
  rw [stepLik_unitSeg]
  rfl

lemma gridNorm_unitLik : gridNorm oneCellConfig (addAt zeroGrid 0 0 2) ≠ 0 := by
  intro h
  have hc := (gridNorm_eq_zero_iff _ _).mp h 0 0
    (by rw [numD_oneCell]; norm_num) (by rw [numPhi_oneCell]; norm_num)
  unfold addAt zeroGrid at hc
  norm_num at hc

/-- Witness for C5: a concrete publishing frame on the 1x1 grid. -/
theorem claim_C5_witness :
    ∃ stq : FilterState,
      processSegments oneCellConfig true ⟨zeroGrid, 0, 0, false⟩ 0 0 0 [unitSeg] =
        (stq, FrameResult.published stq.poseD stq.posePhi stq.poseInLane) ∧
      (stq.poseInLane = true ↔
        (gridMax oneCellConfig stq.beliefRV > oneCellConfig.min_max ∧
          [unitSeg].length > oneCellConfig.min_segs ∧
          gridSum oneCellConfig (addAt zeroGrid 0 0 2) ≠ 0)) ∧
      ([unitSeg].length < oneCellConfig.min_segs → stq.poseInLane = false) :=
  claim_C5 oneCellConfig ⟨zeroGrid, 0, 0, false⟩ 0 0 0 [unitSeg]
    (addAt zeroGrid 0 0 2) buildLik_unitSeg gridNorm_unitLik

/-- A segment whose first endpoint has a negative coordinate. -/
def negSeg : Segment := ⟨YELLOW, ⟨-1, 0⟩, ⟨1, 0⟩⟩

/-- A degenerate zero-length yellow segment with non-negative coordinates. -/
def degSeg : Segment := ⟨YELLOW, ⟨1, 1⟩, ⟨1, 1⟩⟩

lemma stepLik_degenerate (c : Config) (g : Grid) (s : Segment)
    (hcol : s.color = YELLOW) (h1 : ¬(s.p1.x < 0 ∨ s.p2.x < 0))
    (hx : s.p1.x = s.p2.x) (hy : s.p1.y = s.p2.y) :
    stepLik c g s = Except.error () := by
  have hz : segNorm s = 0 := by
    unfold segNorm
    rw [← hx, ← hy]
    norm_num
  have hv : generateVote c s = none := by
    unfold generateVote
    rw [if_pos hz]
  unfold stepLik
  rw [if_neg (not_not_intro hcol), if_neg h1, hv]

lemma buildLik_degenerate (c : Config) (s : Segment) (post : List Segment)
    (hcol : s.color = YELLOW) (h1 : ¬(s.p1.x < 0 ∨ s.p2.x < 0))
    (hx : s.p1.x = s.p2.x) (hy : s.p1.y = s.p2.y) :
    ∀ (pre : List Segment) (g : Grid),
      buildLik c g (pre ++ s :: post) = Except.error () := by
  intro pre
  induction pre with
  | nil =>
    intro g
    rw [List.nil_append]
    unfold buildLik
    rw [stepLik_degenerate c g s hcol h1 hx hy]
  | cons p rest ih =>
    intro g
    rw [List.cons_append]
    unfold buildLik
    rcases hs : stepLik c g p with e | g'
    · cases e
      rfl
    · simp only
      exact ih g'

/-- C8 (amended): a segment with a negative endpoint `x` coordinate is skipped
without contributing a vote; only the `x` coordinates are checked, however, and
a degenerate zero-length yellow segment with non-negative `x` coordinates is
not skipped: its zero-norm division produces NaN values whose use as array
indices raises, aborting the whole frame. -/
theorem claim_C8 :
    (∀ (c : Config) (g : Grid) (s : Segment),
      s.p1.x < 0 ∨ s.p2.x < 0 → stepLik c g s = Except.ok g) ∧
    (∀ (c : Config) (st : FilterState) (dt v w : ℝ)
      (pre post : List Segment) (s : Segment),
      s.color = YELLOW → 0 ≤ s.p1.x → 0 ≤ s.p2.x →
      s.p1.x = s.p2.x → s.p1.y = s.p2.y →
      (processSegments c true st dt v w (pre ++ s :: post)).2 = FrameResult.crashed) := by
  constructor
  · intro c g s hneg
    unfold stepLik
    by_cases hcol : s.color ≠ YELLOW
    · rw [if_pos hcol]
    · rw [if_neg hcol, if_pos hneg]
  · intro c st dt v w pre post s hcol h1 h2 hx hy
    have herr := buildLik_degenerate c s post hcol (by push_neg; exact ⟨h1, h2⟩) hx hy pre zeroGrid
    rw [processSegments_crashed_eq c st dt v w (pre ++ s :: post) () herr]

/-- Witness for C8: the negative-x segment is skipped; the concrete degenerate
segment aborts its frame. -/
theorem claim_C8_witness :
    stepLik defaultConfig zeroGrid negSeg = Except.ok zeroGrid ∧
    (processSegments defaultConfig true ⟨zeroGrid, 0, 0, false⟩ 0 0 0
      ([] ++ degSeg :: [])).2 = FrameResult.crashed := by
  constructor
  · apply claim_C8.1
    left
    norm_num [negSeg]
  · apply claim_C8.2
    · rfl
    · norm_num [degSeg]
    · norm_num [degSeg]
    · rfl
    · rfl

/-- Counterexample to C8 as stated: a frame containing a degenerate zero-length
yellow segment with non-negative coordinates is not processed to completion
with the segment skipped; the exception escapes `processSegments`. -/
theorem claim_C8_cex :
    (processSegments defaultConfig true ⟨zeroGrid, 0, 0, false⟩ 0 0 0 [degSeg]).2 =
      FrameResult.crashed := by
  have herr : buildLik defaultConfig zeroGrid [degSeg] = Except.error () :=
    buildLik_degenerate defaultConfig degSeg [] rfl (by norm_num [degSeg]) rfl rfl [] zeroGrid
  rw [processSegments_crashed_eq defaultConfig ⟨zeroGrid, 0, 0, false⟩ 0 0 0 [degSeg] () herr]

lemma binD_dCoord (c : Config) (hδ : c.delta_d ≠ 0) (i : ℤ) :
    binD c (dCoord c i) = i := by
  unfold binD dCoord
  rw [add_sub_cancel_left, mul_div_cancel_right₀ _ hδ, Int.floor_intCast]

lemma binPhi_phiCoord (c : Config) (hδ : c.delta_phi ≠ 0) (j : ℤ) :
    binPhi c (phiCoord c j) = j := by
  unfold binPhi phiCoord
  rw [add_sub_cancel_left, mul_div_cancel_right₀ _ hδ, Int.floor_intCast]

lemma inB_coord (c : Config) (hδd : 0 < c.delta_d) (hδp : 0 < c.delta_phi)
    {i j : ℕ} (hi : i < numD c) (hj : j < numPhi c) :
    inB c (dCoord c (i : ℤ)) (phiCoord c (j : ℤ)) := by
  have hdi : (i : ℝ) < (c.d_max - c.d_min) / c.delta_d := Nat.lt_ceil.mp hi
  have hpj : (j : ℝ) < (c.phi_max - c.phi_min) / c.delta_phi := Nat.lt_ceil.mp hj
  have h1 : (i : ℝ) * c.delta_d < c.d_max - c.d_min := (lt_div_iff₀ hδd).mp hdi
  have h2 : (j : ℝ) * c.delta_phi < c.phi_max - c.phi_min := (lt_div_iff₀ hδp).mp hpj
  have h3 : 0 ≤ (i : ℝ) * c.delta_d := mul_nonneg (Nat.cast_nonneg i) hδd.le
  have h4 : 0 ≤ (j : ℝ) * c.delta_phi := mul_nonneg (Nat.cast_nonneg j) hδp.le
  unfold inB dCoord phiCoord
  push_neg
  push_cast
  exact ⟨by linarith, by linarith, by linarith, by linarith⟩

lemma remap_zero_vel (c : Config) (b : Grid) (dt : ℝ)
    (hδd : 0 < c.delta_d) (hδp : 0 < c.delta_phi)
    (hb : ∀ i j : ℕ, i < numD c → j < numPhi c → 0 ≤ b i j)
    {i0 j0 : ℕ} (hi0 : i0 < numD c) (hj0 : j0 < numPhi c) :
    remap c b dt 0 0 (i0 : ℤ) (j0 : ℤ) = b i0 j0 := by
  have hdT : ∀ i j : ℤ, dT c 0 dt i j = dCoord c i := by
    intro i j
    unfold dT
    ring
  have hpT : ∀ j : ℤ, phiT c 0 dt j = phiCoord c j := by
    intro j
    unfold phiT
    ring
  unfold remap
  simp only [hdT, hpT]
  rw [Finset.sum_eq_single i0]
  · rw [Finset.sum_eq_single j0]
    · rw [binD_dCoord c (ne_of_gt hδd), binPhi_phiCoord c (ne_of_gt hδp)]
      have hin := inB_coord c hδd hδp hi0 hj0
      rcases (hb i0 j0 hi0 hj0).lt_or_eq with hpos | heq
      · rw [if_pos ⟨hpos, hin, rfl, rfl⟩]
      · rw [if_neg ?hneg]
        · exact heq
        case hneg =>
          rintro ⟨h1, -, -, -⟩
          rw [← heq] at h1
          exact lt_irrefl 0 h1
    · intro j _ hne
      apply if_neg
      rintro ⟨-, -, -, hbp⟩
      rw [binPhi_phiCoord c (ne_of_gt hδp)] at hbp
      exact hne (by exact_mod_cast hbp)
    · intro h
      exact absurd (Finset.mem_range.mpr hj0) h
  · intro i _ hne
    apply Finset.sum_eq_zero
    intro j _
    apply if_neg
    rintro ⟨-, -, hbd, -⟩
    rw [binD_dCoord c (ne_of_gt hδd)] at hbd
    exact hne (by exact_mod_cast hbd)
  · intro h
    exact absurd (Finset.mem_range.mpr hi0) h

lemma kernelR_zero : kernelR 0 = 0 := by
  unfold kernelR
  rw [Nat.floor_eq_zero]
  norm_num

lemma smooth1_sigma_zero (f : ℤ → ℝ) (i : ℤ) : smooth1 0 f i = f i := by
  unfold smooth1 kernelZ
  rw [kernelR_zero]
  simp [kernelU]

lemma smoothed_sigma_zero (c : Config) (g : Grid)
    (hσd : c.sigma_d_mask = 0) (hσp : c.sigma_phi_mask = 0) {i j : ℤ}
    (hi0 : 0 ≤ i) (hi1 : i < (numD c : ℤ)) (hj0 : 0 ≤ j) (hj1 : j < (numPhi c : ℤ)) :
    smoothed c g i j = g i j := by
  unfold smoothed smoothD
  rw [hσp, hσd]
  simp only [smooth1_sigma_zero]
  unfold readGrid
  rw [if_pos ⟨hi0, hi1, hj0, hj1⟩]
  show (if 0 ≤ i ∧ i < (numD c : ℤ) ∧ 0 ≤ j ∧ j < (numPhi c : ℤ) then g i j else 0) = g i j
  rw [if_pos ⟨hi0, hi1, hj0, hj1⟩]

/-- C7: with `v = 0` and `omega = 0` the remapped pre-smoothing grid equals the
belief on every cell for any elapsed time, and with both smoothing sigmas equal
to 0 the whole propagation leaves a normalised belief exactly unchanged. -/
theorem claim_C7 (c : Config) (b : Grid) (dt : ℝ)
    (hδd : 0 < c.delta_d) (hδp : 0 < c.delta_phi)
    (hb : ∀ i j : ℕ, i < numD c → j < numPhi c → 0 ≤ b i j) :
    (∀ i j : ℕ, i < numD c → j < numPhi c → remap c b dt 0 0 i j = b i j) ∧
    (c.sigma_d_mask = 0 → c.sigma_phi_mask = 0 → gridSum c b = 1 →
      ∀ i j : ℕ, i < numD c → j < numPhi c →
        propagateBelief c b dt 0 0 i j = b i j) := by
  constructor
  · intro i j hi hj
    exact remap_zero_vel c b dt hδd hδp hb hi hj
  · intro hσd hσp hsum i0 j0 hi0 hj0
    have hsmooth : ∀ i j : ℕ, i < numD c → j < numPhi c →
        smoothed c (fun a e => 100 * remap c b dt 0 0 a e) i j = 100 * b i j := by
      intro i j hi hj
      rw [smoothed_sigma_zero c _ hσd hσp (Int.ofNat_nonneg i)
        (by exact_mod_cast hi) (Int.ofNat_nonneg j) (by exact_mod_cast hj)]
      rw [remap_zero_vel c b dt hδd hδp hb hi hj]
    have hS : gridSum c (smoothed c (fun a e => 100 * remap c b dt 0 0 a e)) = 100 := by
      unfold gridSum
      rw [show ∑ i ∈ Finset.range (numD c), ∑ j ∈ Finset.range (numPhi c),
            smoothed c (fun a e => 100 * remap c b dt 0 0 a e) i j
          = ∑ i ∈ Finset.range (numD c), ∑ j ∈ Finset.range (numPhi c), 100 * b (i : ℤ) (j : ℤ)
        from Finset.sum_congr rfl fun i hi => Finset.sum_congr rfl fun j hj =>
          hsmooth i j (Finset.mem_range.mp hi) (Finset.mem_range.mp hj)]
      have : ∑ i ∈ Finset.range (numD c), ∑ j ∈ Finset.range (numPhi c),
          (100 : ℝ) * b (i : ℤ) (j : ℤ) = 100 * gridSum c b := by
        unfold gridSum
        rw [Finset.mul_sum]
        exact Finset.sum_congr rfl fun i _ => by rw [Finset.mul_sum]
      rw [this, hsum]
      norm_num
    simp only [propagateBelief]
    rw [if_neg (by rw [hS]; norm_num)]
    show smoothed c (fun a e => 100 * remap c b dt 0 0 a e) i0 j0
        / gridSum c (smoothed c (fun a e => 100 * remap c b dt 0 0 a e)) = b i0 j0
    rw [hS, hsmooth i0 j0 hi0 hj0, mul_comm]
    exact mul_div_cancel_right₀ _ (by norm_num)

/-- Witness for C7 on the concrete 1x1 grid with zero smoothing sigmas. -/
theorem claim_C7_witness :
    remap oneCellConfig (fun _ _ => 1) 5 0 0 0 0 = 1 ∧
    propagateBelief oneCellConfig (fun _ _ => 1) 5 0 0 0 0 = 1 := by
  have hsum : gridSum oneCellConfig (fun _ _ => (1 : ℝ)) = 1 := by
    rw [show gridSum oneCellConfig (fun _ _ => (1 : ℝ)) =
        ∑ i ∈ Finset.range (numD oneCellConfig),
          ∑ j ∈ Finset.range (numPhi oneCellConfig), (1 : ℝ) from rfl]
    rw [numD_oneCell, numPhi_oneCell]
    norm_num
  have h := claim_C7 oneCellConfig (fun _ _ => 1) 5
    (by norm_num [oneCellConfig]) (by norm_num [oneCellConfig])
    (by intro i j _ _; norm_num)
  constructor
  · simpa using h.1 0 0 (by rw [numD_oneCell]; norm_num) (by rw [numPhi_oneCell]; norm_num)
  · simpa using h.2 rfl rfl hsum 0 0
      (by rw [numD_oneCell]; norm_num) (by rw [numPhi_oneCell]; norm_num)

lemma segNorm_ne_zero (s : Segment) (hne : ¬(s.p1.x = s.p2.x ∧ s.p1.y = s.p2.y)) :
    segNorm s ≠ 0 := by
  unfold segNorm
  intro h
  have hnn : (0:ℝ) ≤ (s.p2.x - s.p1.x) ^ 2 + (s.p2.y - s.p1.y) ^ 2 := by positivity
  have h2 : (s.p2.x - s.p1.x) ^ 2 + (s.p2.y - s.p1.y) ^ 2 = 0 :=
    le_antisymm (Real.sqrt_eq_zero'.mp h) hnn
  have hx : s.p2.x - s.p1.x = 0 := by
    nlinarith [sq_nonneg (s.p2.x - s.p1.x), sq_nonneg (s.p2.y - s.p1.y)]
  have hy : s.p2.y - s.p1.y = 0 := by
    nlinarith [sq_nonneg (s.p2.x - s.p1.x), sq_nonneg (s.p2.y - s.p1.y)]
  exact hne ⟨by linarith, by linarith⟩

/-- The example segment of the specification: a yellow segment from `(1, 0)`
to `(0, 1)`. -/
def exSeg : Segment := ⟨YELLOW, ⟨1, 0⟩, ⟨0, 1⟩⟩

lemma segNorm_exSeg : segNorm exSeg = Real.sqrt 2 := by
  unfold segNorm exSeg
  norm_num

lemma sqrt_two_facts :
    Real.sqrt 2 * Real.sqrt 2 = 2 ∧ (0:ℝ) < Real.sqrt 2 ∧
      1 / Real.sqrt 2 = Real.sqrt 2 / 2 := by
  have hm : Real.sqrt 2 * Real.sqrt 2 = 2 := Real.mul_self_sqrt (by norm_num)
  have h0 : (0:ℝ) < Real.sqrt 2 := Real.sqrt_pos.mpr (by norm_num)
  refine ⟨hm, h0, ?_⟩
  rw [div_eq_div_iff (by positivity) (by norm_num)]
  linarith

lemma tHatY_exSeg : tHatY exSeg = Real.sqrt 2 / 2 := by
  unfold tHatY
  rw [segNorm_exSeg]
  obtain ⟨-, -, h⟩ := sqrt_two_facts
  rw [show exSeg.p2.y - exSeg.p1.y = 1 by norm_num [exSeg]]
  exact h

lemma voteD_exSeg : voteD exSeg = -(Real.sqrt 2 / 2) := by
  obtain ⟨hm, h0, h1⟩ := sqrt_two_facts
  unfold voteD tHatX tHatY
  rw [segNorm_exSeg]
  rw [show exSeg.p2.y - exSeg.p1.y = 1 by norm_num [exSeg],
    show exSeg.p2.x - exSeg.p1.x = -1 by norm_num [exSeg],
    show exSeg.p1.x = (1:ℝ) from rfl, show exSeg.p1.y = (0:ℝ) from rfl,
    show exSeg.p2.x = (0:ℝ) from rfl, show exSeg.p2.y = (1:ℝ) from rfl]
  field_simp
  linarith

lemma voteL_exSeg : voteL exSeg = Real.sqrt 2 / 2 := by
  obtain ⟨hm, h0, h1⟩ := sqrt_two_facts
  unfold voteL tHatX tHatY
  rw [segNorm_exSeg]
  rw [show exSeg.p2.y - exSeg.p1.y = 1 by norm_num [exSeg],
    show exSeg.p2.x - exSeg.p1.x = -1 by norm_num [exSeg],
    show exSeg.p1.x = (1:ℝ) from rfl, show exSeg.p1.y = (0:ℝ) from rfl,
    show exSeg.p2.x = (0:ℝ) from rfl, show exSeg.p2.y = (1:ℝ) from rfl]
  rw [show (-1 : ℝ) / Real.sqrt 2 * 1 + 1 / Real.sqrt 2 * 0 = -(1 / Real.sqrt 2) by ring,
    show (-1 : ℝ) / Real.sqrt 2 * 0 + 1 / Real.sqrt 2 * 1 = 1 / Real.sqrt 2 by ring,
    abs_neg, abs_of_pos (by positivity), h1]
  ring

lemma votePhi_exSeg : votePhi exSeg = Real.pi / 4 := by
  unfold votePhi
  rw [tHatY_exSeg, ← Real.sin_pi_div_four]
  have hpi := Real.pi_pos
  exact Real.arcsin_sin (by linarith) (by linarith)

lemma generateVote_exSeg :
    generateVote defaultConfig exSeg =
      some (1 / 5 - Real.sqrt 2 / 2, Real.pi / 4, Real.sqrt 2 / 2) := by
  have h0 : ¬ segNorm exSeg = 0 := by
    rw [segNorm_exSeg]
    obtain ⟨-, hp, -⟩ := sqrt_two_facts
    exact ne_of_gt hp
  unfold generateVote
  rw [if_neg h0, if_pos (show exSeg.color = YELLOW from rfl),
    if_neg (show ¬ exSeg.p2.x > exSeg.p1.x by norm_num [exSeg])]
  rw [voteD_exSeg, votePhi_exSeg, voteL_exSeg]
  norm_num [defaultConfig]

lemma binD_exVote : binD defaultConfig (1 / 5 - Real.sqrt 2 / 2) = 9 := by
  obtain ⟨hm, h0, -⟩ := sqrt_two_facts
  have hlo : (14:ℝ) / 10 < Real.sqrt 2 := by nlinarith
  have hhi : Real.sqrt 2 < (144:ℝ) / 100 := by nlinarith
  unfold binD defaultConfig
  simp only
  rw [show (1 / 5 - Real.sqrt 2 / 2 - -(7 / 10)) / (1 / 50 : ℝ)
      = 45 - 25 * Real.sqrt 2 by field_simp; ring]
  rw [Int.floor_eq_iff]
  constructor
  · push_cast
    linarith
  · push_cast
    linarith

lemma binPhi_exVote : binPhi defaultConfig (Real.pi / 4) = 117 := by
  have hlo := Real.pi_gt_d6
  have hhi := Real.pi_lt_d6
  unfold binPhi defaultConfig
  simp only
  rw [show (Real.pi / 4 - -(Real.pi / 2)) / (1 / 50 : ℝ) = 75 * Real.pi / 2 by
    field_simp; ring]
  rw [Int.floor_eq_iff]
  constructor
  · push_cast
    linarith
  · push_cast
    linarith

/-- C3: for yellow non-degenerate segments with non-negative coordinates the
vote generator computes exactly the specification's formulas, and the example
segment `(1,0) -> (0,1)` under the default configuration (`lanewidth = 0.4`,
`linewidth_yellow = 0.02`, distance weighting disabled) yields the vote
`(0.2 - sqrt 2 / 2, pi/4, sqrt 2 / 2)`, binned into grid cell `(9, 117)`. -/
theorem claim_C3 :
    (∀ (c : Config) (s : Segment), s.color = YELLOW →
      0 ≤ s.p1.x → 0 ≤ s.p1.y → 0 ≤ s.p2.x → 0 ≤ s.p2.y →
      ¬(s.p1.x = s.p2.x ∧ s.p1.y = s.p2.y) →
      generateVote c s = some (specVote c s)) ∧
    generateVote defaultConfig exSeg =
      some (1 / 5 - Real.sqrt 2 / 2, Real.pi / 4, Real.sqrt 2 / 2) ∧
    binD defaultConfig (1 / 5 - Real.sqrt 2 / 2) = 9 ∧
    binPhi defaultConfig (Real.pi / 4) = 117 := by
  refine ⟨?_, generateVote_exSeg, binD_exVote, binPhi_exVote⟩
  intro c s hcol _ _ _ _ hne
  have h0 := segNorm_ne_zero s hne
  unfold generateVote specVote
  rw [if_neg h0, if_pos hcol]
  simp only [voteD, voteL, votePhi, tHatX, tHatY, segNorm]
  split_ifs
  · norm_num
  · norm_num

/-- Witness for C3 at the example segment. -/
theorem claim_C3_witness :
    generateVote defaultConfig exSeg = some (specVote defaultConfig exSeg) :=
  claim_C3.1 defaultConfig exSeg rfl (by norm_num [exSeg]) (by norm_num [exSeg])
    (by norm_num [exSeg]) (by norm_num [exSeg]) (by norm_num [exSeg])

end LaneFilter

end
